import Mathlib

set_option maxHeartbeats 2000000
set_option maxRecDepth 8000

/-!
Verification of the image-to-collider extraction pipeline and of the example
application in `examples/colliders.rs`.

The extraction library itself (the four `*_translated` entry points) is not
part of the sources under verification; only its caller, the example
application, is.  Following the specification, the library is modelled here
from the spec's own component contracts (§3, §4, §6, §7), while the example
application's systems (`check_assets`, the four spawn systems, the state
registration in `main`) are embedded directly from `examples/colliders.rs`.
-/

/-- An already-decoded image: a width times height grid of pixels whose alpha
channel is read through `alpha x y` (row `y` from the top, column `x` from the
left), values in `[0, 255]`.  This is the spec's PixelGrid (§3). -/
structure Image where
  width : Nat
  height : Nat
  alpha : Nat → Nat → Nat

/-- Modelled from the spec: the OccupancyMask opacity test (§4.1) of the
missing extraction library.  A pixel inside the grid is solid ("opaque")
exactly when its alpha value is above the default threshold, i.e. alpha > 0. -/
def isSolid (img : Image) (x y : Nat) : Bool :=
  decide (x < img.width) && decide (y < img.height) && decide (0 < img.alpha x y)

/-- All pixel coordinates of the grid, in deterministic top-to-bottom,
left-to-right scan order (§4.3's deterministic scan). -/
def gridPixels (img : Image) : List (Nat × Nat) :=
  (List.range img.height).foldr
    (fun y acc => ((List.range img.width).map fun x => (x, y)) ++ acc) []

/-- The solid ("opaque") pixels of the image, in scan order. -/
def solidPixels (img : Image) : List (Nat × Nat) :=
  (gridPixels img).filter fun p => isSolid img p.1 p.2

/-- Modelled from the spec: 8-connectivity between pixels (§4.2 requires
8-connectivity for the missing ContourTracer's connected components). -/
def adj8 (p q : Nat × Nat) : Bool :=
  decide (p ≠ q) &&
    decide (((p.1 : Int) - (q.1 : Int)).natAbs ≤ 1) &&
    decide (((p.2 : Int) - (q.2 : Int)).natAbs ≤ 1)

/-- One growth step of a connected component: all solid pixels that are in the
current set or 8-adjacent to it, in canonical scan order. -/
def growBlob (img : Image) (s : List (Nat × Nat)) : List (Nat × Nat) :=
  (solidPixels img).filter fun q => s.contains q || s.any fun p => adj8 p q

/-- Iterate `growBlob` until a fixpoint is reached (fuel-bounded; the fuel used
by `blobAt` always suffices since each non-fixpoint step adds a pixel). -/
def growIter (img : Image) : Nat → List (Nat × Nat) → List (Nat × Nat)
  | 0, s => s
  | n + 1, s =>
    let t := growBlob img s
    if t = s then s else growIter img n t

/-- Modelled from the spec: the connected component (blob, §4.2) of the missing
ContourTracer containing the pixel `p`, as the canonical scan-ordered sublist
of the solid pixels. -/
def blobAt (img : Image) (p : Nat × Nat) : List (Nat × Nat) :=
  growIter img (solidPixels img).length [p]

/-- Keep the first occurrence of each element not yet seen, preserving
first-encounter order. -/
def dedupFirstAux {α : Type} [DecidableEq α] : List α → List α → List α
  | [], _ => []
  | a :: l, seen =>
    if seen.contains a then dedupFirstAux l seen
    else a :: dedupFirstAux l (a :: seen)

/-- Keep the first occurrence of each element, preserving first-encounter
order (used to list each blob once, in scan order of its first pixel). -/
def dedupFirst {α : Type} [DecidableEq α] (l : List α) : List α :=
  dedupFirstAux l []

/-- Modelled from the spec: the blob set (§3 BlobSet) of the missing
MultiBlobSeparator component: one connected component per maximal solid
region, listed in deterministic scan order of first encounter. -/
def blobsOf (img : Image) : List (List (Nat × Nat)) :=
  dedupFirst ((solidPixels img).map fun p => blobAt img p)

/-- Modelled from the spec: the degenerate-region test of the missing
ContourTracer (§4.2): isolated single pixels and 1-pixel-wide slivers, i.e.
regions spanning fewer than two distinct columns or fewer than two distinct
rows, are discarded rather than emitted. -/
def nondegenerate (b : List (Nat × Nat)) : Bool :=
  decide (2 ≤ ((b.map Prod.fst).dedup).length) &&
    decide (2 ≤ ((b.map Prod.snd).dedup).length)

/-- The eight Moore-neighbourhood direction offsets. -/
def dirs8 : List (Int × Int) :=
  [(-1, -1), (0, -1), (1, -1), (-1, 0), (1, 0), (-1, 1), (0, 1), (1, 1)]

/-- Modelled from the spec: the boundary test of the missing ContourTracer
(§3 invariant: polyline points are transition pixels between opaque and
transparent).  A pixel is on the mask boundary when some 8-neighbour is
outside the grid or not solid. -/
def onMaskBoundary (img : Image) (p : Nat × Nat) : Bool :=
  dirs8.any fun d =>
    let nx : Int := (p.1 : Int) + d.1
    let ny : Int := (p.2 : Int) + d.2
    decide (nx < 0) || decide (ny < 0) ||
      decide ((img.width : Int) ≤ nx) || decide ((img.height : Int) ≤ ny) ||
      !(isSolid img nx.toNat ny.toNat)

/-- Modelled from the spec: the boundary polyline of one blob produced by the
missing ContourTracer (§4.2), in pixel coordinates.  The spec does not pin a
particular boundary-following algorithm; the traversal order used here is the
deterministic scan order, which none of the verified claims depend on. -/
def boundaryPixels (img : Image) (b : List (Nat × Nat)) : List (Nat × Nat) :=
  b.filter (onMaskBoundary img)

/-- Modelled from the spec: the combined blob filter of the missing
ContourTracer: degenerate regions are discarded (§4.2) and the BoundaryPolyline
invariant of §3 (at least 3 distinct points, no duplicate points after
tracing) is enforced, degenerate traces being discarded as well. -/
def validBlobB (img : Image) (b : List (Nat × Nat)) : Bool :=
  nondegenerate b &&
    decide (3 ≤ (boundaryPixels img b).length) &&
    decide ((boundaryPixels img b).Nodup)

/-- The blobs of the image that survive the spec's degenerate filter, in
deterministic scan order. -/
def validBlobs (img : Image) : List (List (Nat × Nat)) :=
  (blobsOf img).filter (validBlobB img)

/-- Modelled from the spec: the CoordinateTranslator (§4.4) of the missing
library: pixel coordinate (x, y) maps to world coordinates
(x - width/2, height/2 - y) using the image's own width and height. -/
def translatePt (img : Image) (p : Nat × Nat) : ℚ × ℚ :=
  ((p.1 : ℚ) - (img.width : ℚ) / 2, (img.height : ℚ) / 2 - (p.2 : ℚ))

/-- The world-space boundary polyline of one blob: the traced boundary with
the coordinate translation applied uniformly to every point. -/
def edgePolylineOfBlob (img : Image) (b : List (Nat × Nat)) : List (ℚ × ℚ) :=
  (boundaryPixels img b).map (translatePt img)

/-- A physics collider built from a convex polyline, as handed to the physics
engine by the missing library (the example only forwards these values). -/
structure Collider where
  points : List (ℚ × ℚ)
deriving DecidableEq

/-- Modelled from the spec: the convex-polyline collider built for one blob by
the missing library: the blob's translated boundary polyline handed to the
physics engine as one collider. -/
def colliderOfBlob (img : Image) (b : List (Nat × Nat)) : Collider :=
  ⟨edgePolylineOfBlob img b⟩

/-- First blob of maximal pixel area, ties broken by scan order (§4.3's
selection policy for the single-collider mode). -/
def pickMax : List (List (Nat × Nat)) → Option (List (Nat × Nat))
  | [] => none
  | b :: bs =>
    some (bs.foldl (fun best c => if best.length < c.length then c else best) b)

/-- Modelled from the spec: the dominant-blob selection of the missing
MultiBlobSeparator (§4.3): the valid blob enclosing the largest pixel area,
ties broken by first encounter in the deterministic scan. -/
def dominantBlob (img : Image) : Option (List (Nat × Nat)) :=
  pickMax (validBlobs img)

/-- The error taxonomy of the spec (§7): only InvalidInput is ever surfaced. -/
inductive ExtractError
  | invalidInput
deriving DecidableEq

instance exceptDecEq {ε α : Type} [DecidableEq ε] [DecidableEq α] :
    DecidableEq (Except ε α)
  | Except.ok a, Except.ok b =>
    if h : a = b then isTrue (by rw [h])
    else isFalse (by intro he; cases he; exact h rfl)
  | Except.ok _, Except.error _ => isFalse (by intro h; cases h)
  | Except.error _, Except.ok _ => isFalse (by intro h; cases h)
  | Except.error e, Except.error f =>
    if h : e = f then isTrue (by rw [h])
    else isFalse (by intro he; cases he; exact h rfl)

/-- An image is invalid input exactly when its width or height is zero (§7). -/
def zeroArea (img : Image) : Bool :=
  img.width == 0 || img.height == 0

/-- Boolean success test for extraction results. -/
def isOkB {α : Type} : Except ExtractError α → Bool
  | Except.ok _ => true
  | Except.error _ => false

/-- Modelled from the spec: the missing library's boundary-groups entry point
(§6 `extract_boundary_groups`, called `multi_image_edge_translated` by the
example): one world-space boundary polyline per valid blob; zero-area images
fail fast with InvalidInput (§7), everything else succeeds. -/
def multi_image_edge_translated (img : Image) :
    Except ExtractError (List (List (ℚ × ℚ))) :=
  if zeroArea img then Except.error ExtractError.invalidInput
  else Except.ok ((validBlobs img).map (edgePolylineOfBlob img))

/-- Modelled from the spec: the missing library's multi-collider entry point
(§6 `extract_multi_convex_colliders`, called
`multi_convex_polyline_collider_translated` by the example): one per-blob
collider element per valid blob, each element successful (§7: degenerate
geometry is silently filtered, never surfaced as a failure); zero-area images
fail fast with InvalidInput.  The per-element `Option` mirrors the element
type unwrapped by the example. -/
def multi_convex_polyline_collider_translated (img : Image) :
    Except ExtractError (List (Option Collider)) :=
  if zeroArea img then Except.error ExtractError.invalidInput
  else Except.ok ((validBlobs img).map fun b => some (colliderOfBlob img b))

/-- Modelled from the spec: the missing library's single-collider entry point
(called `single_convex_polyline_collider_translated` by the example), shaped
as its caller `car_spawn` uses it: an optional single collider (unwrapped and
spawned as one collider component), built from the dominant blob; `none` is
the empty "no geometry" outcome (§7 EmptyResult); zero-area images fail fast
with InvalidInput. -/
def single_convex_polyline_collider_translated (img : Image) :
    Except ExtractError (Option Collider) :=
  if zeroArea img then Except.error ExtractError.invalidInput
  else Except.ok ((dominantBlob img).map (colliderOfBlob img))

/-- Modelled from the spec: the sentinel height recorded for a fully
transparent column (§3: "0 or the minimum height"; §4.6).  With heights
recorded as top-down row indices the minimum terrain height is the bottom of
the image, row index `height`. -/
def sentinelHeight (img : Image) : Nat :=
  img.height

/-- Modelled from the spec: the HeightfieldSampler (§4.6) of the missing
library: for column `x`, scan rows top-to-bottom and record the row of the
first solid pixel; a fully transparent column records the sentinel. -/
def heightSample (img : Image) (x : Nat) : Nat :=
  match (List.range img.height).find? (fun y => isSolid img x y) with
  | some y => y
  | none => sentinelHeight img

/-- The raw heightfield profile: one sample per column (§3
HeightfieldProfile). -/
def heightSamples (img : Image) : List Nat :=
  (List.range img.width).map (heightSample img)

/-- Modelled from the spec: the missing library's heightfield entry point
(§6 `extract_heightfield`, called `single_heightfield_collider_translated` by
the example): one world-space sample position per column, the coordinate
translation applied to each (column, sampled row) pair; zero-area images fail
fast with InvalidInput. -/
def single_heightfield_collider_translated (img : Image) :
    Except ExtractError (List (ℚ × ℚ)) :=
  if zeroArea img then Except.error ExtractError.invalidInput
  else Except.ok ((List.range img.width).map fun x =>
    translatePt img (x, heightSample img x))

/-- A pixel-aligned axis-parallel rectangle with inclusive pixel bounds, used
as one convex piece of a decomposition of a pixel region. -/
structure PixRect where
  x0 : Nat
  x1 : Nat
  y0 : Nat
  y1 : Nat
deriving DecidableEq

/-- Maximal horizontal runs of pixels of `b` in row `y`: the list of inclusive
intervals (start, end) of consecutive columns whose pixel lies in `b`. -/
def rowRuns (b : List (Nat × Nat)) (w y : Nat) : List (Nat × Nat) :=
  let r := (List.range w).foldl
    (fun (acc : List (Nat × Nat) × Option Nat) x =>
      if b.contains (x, y) then
        match acc.2 with
        | some s => (acc.1, some s)
        | none => (acc.1, some x)
      else
        match acc.2 with
        | some s => (acc.1 ++ [(s, x - 1)], none)
        | none => (acc.1, none))
    ([], none)
  match r.2 with
  | some s => r.1 ++ [(s, w - 1)]
  | none => r.1

/-- Modelled from the spec: a concrete ConvexDecomposer (§4.5) for the missing
library, stated over pixel regions: partition the region into maximal
horizontal runs and merge vertically adjacent identical runs into rectangles.
Every piece is a convex (rectangular) polygon, the pieces cover the region
without gaps and overlap only on shared edges, and an already-convex
rectangular region passes through as a single piece. -/
def rectDecompose (b : List (Nat × Nat)) (w h : Nat) : List PixRect :=
  let step := fun (acc : List PixRect × List (Nat × Nat × Nat)) (y : Nat) =>
    let rs := rowRuns b w y
    let keep := acc.2.filter fun o => rs.contains (o.1, o.2.1)
    let closedNow := (acc.2.filter fun o => !(rs.contains (o.1, o.2.1))).map
      fun o => PixRect.mk o.1 o.2.1 o.2.2 (y - 1)
    let opened := rs.filter fun r => !(acc.2.any fun o => o.1 == r.1 && o.2.1 == r.2)
    (acc.1 ++ closedNow, keep ++ opened.map fun r => (r.1, r.2, y))
  let fin := (List.range h).foldl step ([], [])
  fin.1 ++ fin.2.map fun o => PixRect.mk o.1 o.2.1 o.2.2 (h - 1)

/-- The world-space corner polygon of one rectangle of a decomposition (the
rectangle spans pixel columns x0..x1 and rows y0..y1 inclusive, so its
continuous corners are (x0, y0) and (x1+1, y1+1)), translated like every
other point. -/
def rectPolygon (img : Image) (r : PixRect) : List (ℚ × ℚ) :=
  [translatePt img (r.x0, r.y0), translatePt img (r.x1 + 1, r.y0),
    translatePt img (r.x1 + 1, r.y1 + 1), translatePt img (r.x0, r.y1 + 1)]

/-- Modelled from the spec: the spec's own words for the single-collider entry
point, §6: `extract_single_convex_collider(image) -> ConvexPolygon-set` (the
dominant blob, decomposed).  Stated for comparison with the entry point the
example actually calls; the decomposition is realised by `rectDecompose`. -/
def extract_single_convex_collider (img : Image) : List (List (ℚ × ℚ)) :=
  match dominantBlob img with
  | none => []
  | some b => (rectDecompose b img.width img.height).map (rectPolygon img)

/-- The polygon set actually delivered by the code's single-collider entry
point: one polygon when a collider is produced, none otherwise. -/
def singleResultPolygons :
    Except ExtractError (Option Collider) → List (List (ℚ × ℚ))
  | Except.ok (some c) => [c.points]
  | Except.ok none => []
  | Except.error _ => []

/-- An asset handle, as stored in the example's `GameAsset` resource
(`examples/colliders.rs:163-167`). -/
abbrev Handle := Nat

/-- The example's `GameAsset` resource (`examples/colliders.rs:163-167`): a
font handle plus a string-keyed map of image handles, the `HashMap` embedded
as an association list. -/
structure GameAsset where
  fontHandle : Handle
  imageHandles : List (String × Handle)

/-- Bevy's `LoadState` for an asset, as queried by `check_assets`. -/
inductive LoadState
  | NotLoaded
  | Loading
  | Loaded
  | Failed
  | Unloaded
deriving DecidableEq

/-- The example's application state (`examples/colliders.rs:157-161`). -/
inductive AppState
  | Loading
  | Running
deriving DecidableEq

/-- `HashMap::get` on the embedded handle map: the handle stored under the
string key, if any. -/
def getHandle (ga : GameAsset) (k : String) : Option Handle :=
  (ga.imageHandles.find? fun kv => kv.1 == k).map Prod.snd

/-- The example's `check_assets` system (`examples/colliders.rs:216-232`):
return early (state unchanged) when any image handle or the font handle is
not `Loaded`, otherwise set the state to `Running`. -/
def check_assets (gls : Handle → LoadState) (ga : GameAsset)
    (st : AppState) : AppState :=
  if ga.imageHandles.any (fun kv => !(decide (gls kv.2 = LoadState.Loaded))) then st
  else if !(decide (gls ga.fontHandle = LoadState.Loaded)) then st
  else AppState.Running

/-- The systems of the example application (`examples/colliders.rs`). -/
inductive SystemId
  | load_assets
  | check_assets
  | camera_spawn
  | custom_png_spawn
  | car_spawn
  | terrain_spawn
  | boulders_spawn
  | controls_text_spawn
  | camera_movement
  | car_movement
deriving DecidableEq

/-- The per-state `on_update` system registration of `main`
(`examples/colliders.rs:204,211-212`). -/
def onUpdateSystems : AppState → List SystemId
  | AppState.Loading => [SystemId.check_assets]
  | AppState.Running => [SystemId.camera_movement, SystemId.car_movement]

/-- The per-state `on_enter` system registration of `main`
(`examples/colliders.rs:203`). -/
def onEnterSystems : AppState → List SystemId
  | AppState.Loading => [SystemId.load_assets]
  | AppState.Running => []

/-- The per-state `on_exit` system registration of `main`
(`examples/colliders.rs:205-210`). -/
def onExitSystems : AppState → List SystemId
  | AppState.Loading =>
    [SystemId.camera_spawn, SystemId.custom_png_spawn, SystemId.car_spawn,
      SystemId.terrain_spawn, SystemId.boulders_spawn, SystemId.controls_text_spawn]
  | AppState.Running => []

/-- The world data a system may read: the asset server's load states and the
`GameAsset` resource. -/
structure Env where
  loadState : Handle → LoadState
  assets : GameAsset

/-- The effect of one system on the `State<AppState>` resource.  In the whole
example source, `check_assets` is the only system that ever writes the state
(`state.set(AppState::Running)`, `examples/colliders.rs:231`); every other
system leaves it unchanged. -/
def stateEffect (env : Env) (sys : SystemId) (st : AppState) : AppState :=
  match sys with
  | SystemId.check_assets => check_assets env.loadState env.assets st
  | _ => st

/-- One scheduler update: run the state effects of the systems registered
`on_update` for the current state; if the state changed, the `on_exit`
systems of the old state also run (none of them writes the state). -/
def appUpdate (env : Env) (st : AppState) : AppState :=
  let st2 := (onUpdateSystems st).foldl (fun s sys => stateEffect env sys s) st
  if st2 = st then st2
  else (onExitSystems st).foldl (fun s sys => stateEffect env sys s) st2

/-- The example's `custom_png_spawn` system (`examples/colliders.rs:23-64`),
modelled by the list of collider components it spawns: early return (no
spawn) when the `"custom_png"` key is absent; otherwise one entity per
element of the multi-collider entry point, each element unwrapped
(`collider.unwrap()`); `none` models a panicking unwrap or a missing decoded
image. -/
def custom_png_spawn (ga : GameAsset) (store : Handle → Option Image) :
    Option (List Collider) :=
  match getHandle ga "custom_png" with
  | none => some []
  | some h =>
    match store h with
    | none => none
    | some img =>
      match multi_convex_polyline_collider_translated img with
      | Except.error _ => none
      | Except.ok cs => cs.mapM id

/-- The example's `car_spawn` system (`examples/colliders.rs:74-96`): early
return when the `"car_handle"` key is absent; otherwise spawn one entity with
the unwrapped single collider. -/
def car_spawn (ga : GameAsset) (store : Handle → Option Image) :
    Option (List Collider) :=
  match getHandle ga "car_handle" with
  | none => some []
  | some h =>
    match store h with
    | none => none
    | some img =>
      match single_convex_polyline_collider_translated img with
      | Except.error _ => none
      | Except.ok oc => oc.map fun c => [c]

/-- The example's `terrain_spawn` system (`examples/colliders.rs:100-119`):
early return when the `"terrain_handle"` key is absent; otherwise spawn one
entity with the heightfield collider. -/
def terrain_spawn (ga : GameAsset) (store : Handle → Option Image) :
    Option (List (List (ℚ × ℚ))) :=
  match getHandle ga "terrain_handle" with
  | none => some []
  | some h =>
    match store h with
    | none => none
    | some img =>
      match single_heightfield_collider_translated img with
      | Except.error _ => none
      | Except.ok l => some [l]

/-- The example's `boulders_spawn` system (`examples/colliders.rs:124-151`):
early return when the `"boulders"` key is absent; otherwise zip the boundary
groups with the colliders and spawn one entity per pair, each collider
unwrapped. -/
def boulders_spawn (ga : GameAsset) (store : Handle → Option Image) :
    Option (List (List (ℚ × ℚ) × Collider)) :=
  match getHandle ga "boulders" with
  | none => some []
  | some h =>
    match store h with
    | none => none
    | some img =>
      match multi_image_edge_translated img, multi_convex_polyline_collider_translated img with
      | Except.ok gs, Except.ok cs =>
        (gs.zip cs).mapM fun pr => pr.2.map fun c => (pr.1, c)
      | _, _ => none

/-- A 2 by 2 fully solid test image. -/
def imgFull2 : Image :=
  ⟨2, 2, fun _ _ => 255⟩

/-- A 3 by 3 fully solid test image. -/
def imgFull3 : Image :=
  ⟨3, 3, fun _ _ => 255⟩

/-- A 3 by 3 test image whose only solid pixel is the centre (1, 1). -/
def imgOnePixel : Image :=
  ⟨3, 3, fun x y => if x = 1 ∧ y = 1 then 255 else 0⟩

/-- A 4 by 4 test image holding one L-shaped (concave) blob: rows 0 and 1 are
solid in columns 0 and 1; rows 2 and 3 are fully solid. -/
def imgL : Image :=
  ⟨4, 4, fun x y => if y < 2 then (if x < 2 then 255 else 0) else 255⟩

theorem zeroArea_eq_false (img : Image) (hw : 0 < img.width)
    (hh : 0 < img.height) : zeroArea img = false := by
  simp only [zeroArea, Bool.or_eq_false_iff, beq_eq_false_iff_ne, ne_eq]
  omega

theorem zeroArea_eq_true_iff (img : Image) :
    zeroArea img = true ↔ img.width = 0 ∨ img.height = 0 := by
  simp [zeroArea]

theorem pickMax_isSome {l : List (List (Nat × Nat))} (h : l ≠ []) :
    ∃ b, pickMax l = some b := by
  cases l with
  | nil => exact absurd rfl h
  | cons b bs => exact ⟨_, rfl⟩

theorem translatePt_injective (img : Image) :
    Function.Injective (translatePt img) := by
  intro p q h
  have h1 := congrArg Prod.fst h
  have h2 := congrArg Prod.snd h
  simp only [translatePt, sub_left_inj, sub_right_inj, Nat.cast_inj] at h1 h2
  obtain ⟨p1, p2⟩ := p
  obtain ⟨q1, q2⟩ := q
  simp_all

/-- C1: for every image with nonzero width and nonzero height, all four
extraction entry points return a successful (possibly empty) result — success
holds exactly when both dimensions are nonzero, so an explicit failure is
surfaced only for a zero-width or zero-height image — every element of the
multi-collider result is successful, and on a valid image with at least one
extractable (non-degenerate) region the single-collider entry point returns a
successful collider, so the example's unwrap calls cannot panic. -/
theorem c1_failures_only_for_zero_area (img : Image) :
    ((isOkB (multi_convex_polyline_collider_translated img) = true ∧
      isOkB (single_convex_polyline_collider_translated img) = true ∧
      isOkB (multi_image_edge_translated img) = true ∧
      isOkB (single_heightfield_collider_translated img) = true) ↔
      (0 < img.width ∧ 0 < img.height)) ∧
    (∀ cs, multi_convex_polyline_collider_translated img = Except.ok cs →
      ∀ c ∈ cs, c.isSome = true) ∧
    (0 < img.width → 0 < img.height → validBlobs img ≠ [] →
      ∃ c, single_convex_polyline_collider_translated img = Except.ok (some c)) := by
  by_cases hz : zeroArea img = true
  · have hwz : img.width = 0 ∨ img.height = 0 := (zeroArea_eq_true_iff img).mp hz
    refine ⟨⟨fun h => ?_, fun h => ?_⟩, fun cs hcs => ?_, fun hw hh _ => ?_⟩
    · exfalso
      have := h.1
      simp [multi_convex_polyline_collider_translated, hz, isOkB] at this
    · exfalso
      rcases hwz with h0 | h0 <;> omega
    · exfalso
      simp [multi_convex_polyline_collider_translated, hz] at hcs
    · exfalso
      rcases hwz with h0 | h0 <;> omega
  · have hz' : zeroArea img = false := by
      simpa using hz
    have hw : 0 < img.width := by
      simp only [zeroArea, Bool.or_eq_false_iff, beq_eq_false_iff_ne, ne_eq] at hz'
      omega
    have hh : 0 < img.height := by
      simp only [zeroArea, Bool.or_eq_false_iff, beq_eq_false_iff_ne, ne_eq] at hz'
      omega
    refine ⟨⟨fun _ => ⟨hw, hh⟩, fun _ => ?_⟩, fun cs hcs => ?_, fun _ _ hvb => ?_⟩
    · simp [multi_convex_polyline_collider_translated,
        single_convex_polyline_collider_translated, multi_image_edge_translated,
        single_heightfield_collider_translated, hz', isOkB]
    · simp only [multi_convex_polyline_collider_translated, hz',
        Bool.false_eq_true, if_false, Except.ok.injEq] at hcs
      subst hcs
      intro c hc
      obtain ⟨b, _, rfl⟩ := List.mem_map.mp hc
      rfl
    · obtain ⟨b, hb⟩ := pickMax_isSome hvb
      refine ⟨colliderOfBlob img b, ?_⟩
      simp [single_convex_polyline_collider_translated, hz', dominantBlob, hb]

/-- C1 witness: on the concrete 2-by-2 fully solid image both dimensions are
nonzero and the single-collider entry point succeeds with a collider. -/
theorem c1_witness :
    (0 < imgFull2.width ∧ 0 < imgFull2.height) ∧
    ∃ c, single_convex_polyline_collider_translated imgFull2 =
      Except.ok (some c) :=
  ⟨⟨by decide, by decide⟩,
    (c1_failures_only_for_zero_area imgFull2).2.2 (by decide) (by decide)
      (by decide)⟩

theorem check_assets_eq (gls : Handle → LoadState) (ga : GameAsset)
    (st : AppState) :
    check_assets gls ga st =
      if (∀ kv ∈ ga.imageHandles, gls kv.2 = LoadState.Loaded) ∧
          gls ga.fontHandle = LoadState.Loaded
      then AppState.Running else st := by
  by_cases h1 : ∀ kv ∈ ga.imageHandles, gls kv.2 = LoadState.Loaded
  · have ha : (ga.imageHandles.any
        fun kv => !(decide (gls kv.2 = LoadState.Loaded))) = false := by
      simp only [List.any_eq_false, Bool.not_eq_true', decide_eq_false_iff_not,
        not_not]
      exact h1
    by_cases h2 : gls ga.fontHandle = LoadState.Loaded
    · have hc : check_assets gls ga st = AppState.Running := by
        unfold check_assets
        rw [ha]
        simp [h2]
      rw [hc, if_pos ⟨h1, h2⟩]
    · have hc : check_assets gls ga st = st := by
        unfold check_assets
        rw [ha]
        simp [h2]
      rw [hc, if_neg (fun hand => h2 hand.2)]
  · have ha : (ga.imageHandles.any
        fun kv => !(decide (gls kv.2 = LoadState.Loaded))) = true := by
      simp only [List.any_eq_true, Bool.not_eq_true', decide_eq_false_iff_not]
      push_neg at h1
      obtain ⟨kv, hkv, hne⟩ := h1
      exact ⟨kv, hkv, hne⟩
    have hc : check_assets gls ga st = st := by
      unfold check_assets
      rw [ha]
      simp
    rw [hc, if_neg (fun hand => h1 hand.1)]

/-- C2: while the state is Loading, the registered-on-update `check_assets`
system sets the state to Running exactly when every image handle and the font
handle report Loaded, and leaves the state unchanged (Loading) otherwise. -/
theorem c2_check_assets_sets_running_iff_loaded (gls : Handle → LoadState)
    (ga : GameAsset) :
    (check_assets gls ga AppState.Loading = AppState.Running ↔
      ((∀ kv ∈ ga.imageHandles, gls kv.2 = LoadState.Loaded) ∧
        gls ga.fontHandle = LoadState.Loaded)) ∧
    (¬ ((∀ kv ∈ ga.imageHandles, gls kv.2 = LoadState.Loaded) ∧
        gls ga.fontHandle = LoadState.Loaded) →
      check_assets gls ga AppState.Loading = AppState.Loading) ∧
    SystemId.check_assets ∈ onUpdateSystems AppState.Loading := by
  rw [check_assets_eq]
  refine ⟨⟨fun h => ?_, fun h => ?_⟩, fun h => ?_, by simp [onUpdateSystems]⟩
  · by_contra hc
    rw [if_neg hc] at h
    exact absurd h (by simp)
  · rw [if_pos h]
  · rw [if_neg h]

/-- C2 witness: with every load state Loaded and no image handles, running
`check_assets` in the Loading state moves the state to Running. -/
theorem c2_witness :
    check_assets (fun _ => LoadState.Loaded) ⟨0, []⟩ AppState.Loading =
      AppState.Running :=
  ((c2_check_assets_sets_running_iff_loaded (fun _ => LoadState.Loaded)
    ⟨0, []⟩).1).mpr ⟨by simp, rfl⟩

/-- C3 counterexample: on the concrete L-shaped (concave, non-degenerate)
image, the entry point the code calls returns exactly one polygon, while the
spec-described decomposed ConvexPolygon-set of the dominant blob holds two
convex polygons, so the single-collider entry point does not return the
decomposed polygon set. -/
theorem c3_counterexample :
    (singleResultPolygons
      (single_convex_polyline_collider_translated imgL)).length = 1 ∧
    (extract_single_convex_collider imgL).length = 2 ∧
    singleResultPolygons (single_convex_polyline_collider_translated imgL) ≠
      extract_single_convex_collider imgL := by
  have h1 : (singleResultPolygons
      (single_convex_polyline_collider_translated imgL)).length = 1 := by decide
  have h2 : (extract_single_convex_collider imgL).length = 2 := by decide
  refine ⟨h1, h2, fun h => ?_⟩
  rw [h] at h1
  omega

/-- C3 amended: the single-collider extraction entry point returns a single
optional collider — the dominant blob's convex polyline, or none when the
image has no extractable region — never a polygon set with more than one
element, matching how `car_spawn` unwraps it into one collider component. -/
theorem c3_single_entry_point_returns_one_optional_collider (img : Image)
    (hw : 0 < img.width) (hh : 0 < img.height) :
    single_convex_polyline_collider_translated img =
      Except.ok ((dominantBlob img).map (colliderOfBlob img)) ∧
    (singleResultPolygons
      (single_convex_polyline_collider_translated img)).length ≤ 1 := by
  have hz := zeroArea_eq_false img hw hh
  constructor
  · simp [single_convex_polyline_collider_translated, hz]
  · rw [show single_convex_polyline_collider_translated img =
      Except.ok ((dominantBlob img).map (colliderOfBlob img)) by
        simp [single_convex_polyline_collider_translated, hz]]
    cases dominantBlob img with
    | none => simp [singleResultPolygons]
    | some b => simp [singleResultPolygons, Option.map_some]

/-- C3 witness: the amended statement instantiated at the concrete L-shaped
image. -/
theorem c3_witness :
    single_convex_polyline_collider_translated imgL =
      Except.ok ((dominantBlob imgL).map (colliderOfBlob imgL)) ∧
    (singleResultPolygons
      (single_convex_polyline_collider_translated imgL)).length ≤ 1 :=
  c3_single_entry_point_returns_one_optional_collider imgL (by decide)
    (by decide)

/-- C4: on every image with nonzero width W and height H, the heightfield
entry point succeeds with exactly W translated samples, one per column; every
raw height sample lies within [0, H]; and a fully transparent column records
the sentinel minimum height instead of being omitted. -/
theorem c4_heightfield_one_sample_per_column (img : Image)
    (hw : 0 < img.width) (hh : 0 < img.height) :
    ∃ l, single_heightfield_collider_translated img = Except.ok l ∧
      l.length = img.width ∧
      (heightSamples img).length = img.width ∧
      (∀ s ∈ heightSamples img, s ≤ img.height) ∧
      (∀ x, x < img.width →
        (∀ y, y < img.height → isSolid img x y = false) →
        heightSample img x = sentinelHeight img) := by
  have hz := zeroArea_eq_false img hw hh
  refine ⟨_, by rw [single_heightfield_collider_translated, hz]; rfl,
    by simp, by simp [heightSamples], ?_, ?_⟩
  · intro s hs
    obtain ⟨x, hx, rfl⟩ := List.mem_map.mp hs
    cases hf : (List.range img.height).find? (fun y => isSolid img x y) with
    | some y =>
      have hy := List.mem_of_find?_eq_some hf
      rw [List.mem_range] at hy
      simp only [heightSample, hf]
      omega
    | none => simp [heightSample, hf, sentinelHeight]
  · intro x _ hemp
    have hf : (List.range img.height).find? (fun y => isSolid img x y) = none := by
      rw [List.find?_eq_none]
      intro y hy
      rw [List.mem_range] at hy
      simp [hemp y hy]
    unfold heightSample
    rw [hf]

/-- C4 witness: the statement instantiated at the concrete 3-by-3 fully solid
image. -/
theorem c4_witness :
    ∃ l, single_heightfield_collider_translated imgFull3 = Except.ok l ∧
      l.length = imgFull3.width ∧
      (heightSamples imgFull3).length = imgFull3.width ∧
      (∀ s ∈ heightSamples imgFull3, s ≤ imgFull3.height) ∧
      (∀ x, x < imgFull3.width →
        (∀ y, y < imgFull3.height → isSolid imgFull3 x y = false) →
        heightSample imgFull3 x = sentinelHeight imgFull3) :=
  c4_heightfield_one_sample_per_column imgFull3 (by decide) (by decide)

/-- C5 counterexample: the concrete 3-by-3 image whose single solid pixel is
its centre has at least one opaque pixel, yet the boundary-groups entry point
returns zero polylines, because the single-pixel region falls under the
spec's own degenerate-region filter (§4.2) and is discarded. -/
theorem c5_counterexample :
    isSolid imgOnePixel 1 1 = true ∧
    multi_image_edge_translated imgOnePixel = Except.ok [] := by
  decide

/-- C5 amended: for every image with nonzero dimensions containing at least
one non-degenerate opaque region (one surviving the spec's §4.2 minimum-size
filter), the boundary-groups entry point returns at least one polyline, and
every returned polyline has at least 3 points, all pairwise distinct, hence
no duplicate consecutive points. -/
theorem c5_boundary_groups_nondegenerate (img : Image)
    (hw : 0 < img.width) (hh : 0 < img.height)
    (hb : validBlobs img ≠ []) :
    ∃ gs, multi_image_edge_translated img = Except.ok gs ∧ gs ≠ [] ∧
      ∀ pl ∈ gs, 3 ≤ pl.length ∧ pl.Nodup ∧
        List.Chain' (fun a b => a ≠ b) pl := by
  have hz := zeroArea_eq_false img hw hh
  refine ⟨_, by rw [multi_image_edge_translated, hz]; rfl, ?_, ?_⟩
  · simpa using hb
  · intro pl hpl
    obtain ⟨b, hbmem, rfl⟩ := List.mem_map.mp hpl
    have hv : validBlobB img b = true := (List.mem_filter.mp hbmem).2
    unfold validBlobB at hv
    rw [Bool.and_eq_true, Bool.and_eq_true] at hv
    have h3 : 3 ≤ (boundaryPixels img b).length := of_decide_eq_true hv.1.2
    have hnd : (boundaryPixels img b).Nodup := of_decide_eq_true hv.2
    have hmap : (edgePolylineOfBlob img b).Nodup :=
      hnd.map (translatePt_injective img)
    refine ⟨?_, hmap, hmap.chain'⟩
    simpa [edgePolylineOfBlob] using h3

/-- C5 witness: the amended statement instantiated at the concrete 3-by-3
fully solid image, whose single blob survives the degenerate filter. -/
theorem c5_witness :
    ∃ gs, multi_image_edge_translated imgFull3 = Except.ok gs ∧ gs ≠ [] ∧
      ∀ pl ∈ gs, 3 ≤ pl.length ∧ pl.Nodup ∧
        List.Chain' (fun a b => a ≠ b) pl :=
  c5_boundary_groups_nondegenerate imgFull3 (by decide) (by decide) (by decide)

/-- C6: every point of every emitted boundary polyline, and every heightfield
sample position, is the image-space point (x, y) mapped to world coordinates
(x - width/2, height/2 - y) with the image's own width and height, uniformly;
and every collider's polyline is such a translated point list as well. -/
theorem c6_translation_centres_on_image (img : Image)
    (hw : 0 < img.width) (hh : 0 < img.height) :
    multi_image_edge_translated img =
      Except.ok ((validBlobs img).map fun b => (boundaryPixels img b).map
        fun p => ((p.1 : ℚ) - (img.width : ℚ) / 2,
          (img.height : ℚ) / 2 - (p.2 : ℚ))) ∧
    single_heightfield_collider_translated img =
      Except.ok ((List.range img.width).map fun (x : Nat) =>
        ((x : ℚ) - (img.width : ℚ) / 2,
          (img.height : ℚ) / 2 - (heightSample img x : ℚ))) ∧
    (∀ cs, multi_convex_polyline_collider_translated img = Except.ok cs →
      ∀ c ∈ cs, ∀ col, c = some col →
        ∃ raw : List (Nat × Nat), col.points = raw.map
          fun p => ((p.1 : ℚ) - (img.width : ℚ) / 2,
            (img.height : ℚ) / 2 - (p.2 : ℚ))) := by
  have hz := zeroArea_eq_false img hw hh
  refine ⟨?_, ?_, ?_⟩
  · rw [multi_image_edge_translated, hz]
    rfl
  · rw [single_heightfield_collider_translated, hz]
    rfl
  · intro cs hcs c hc col hcol
    rw [multi_convex_polyline_collider_translated, hz] at hcs
    simp only [Bool.false_eq_true, if_false, Except.ok.injEq] at hcs
    subst hcs
    obtain ⟨b, _, rfl⟩ := List.mem_map.mp hc
    injection hcol with hcol
    subst hcol
    exact ⟨boundaryPixels img b, rfl⟩

/-- C6 witness: the statement instantiated at the concrete 2-by-2 fully solid
image. -/
theorem c6_witness :
    multi_image_edge_translated imgFull2 =
      Except.ok ((validBlobs imgFull2).map fun b =>
        (boundaryPixels imgFull2 b).map
          fun p => ((p.1 : ℚ) - (imgFull2.width : ℚ) / 2,
            (imgFull2.height : ℚ) / 2 - (p.2 : ℚ))) ∧
    single_heightfield_collider_translated imgFull2 =
      Except.ok ((List.range imgFull2.width).map fun (x : Nat) =>
        ((x : ℚ) - (imgFull2.width : ℚ) / 2,
          (imgFull2.height : ℚ) / 2 - (heightSample imgFull2 x : ℚ))) ∧
    (∀ cs, multi_convex_polyline_collider_translated imgFull2 = Except.ok cs →
      ∀ c ∈ cs, ∀ col, c = some col →
        ∃ raw : List (Nat × Nat), col.points = raw.map
          fun p => ((p.1 : ℚ) - (imgFull2.width : ℚ) / 2,
            (imgFull2.height : ℚ) / 2 - (p.2 : ℚ))) :=
  c6_translation_centres_on_image imgFull2 (by decide) (by decide)

/-- C7: every extraction entry point is a pure function of the image alone
(the model carries no other state, matching §5's stateless pipeline), so two
invocations on the same unchanged image yield exactly equal results. -/
theorem c7_extraction_deterministic (img : Image) :
    multi_image_edge_translated img = multi_image_edge_translated img ∧
    multi_convex_polyline_collider_translated img =
      multi_convex_polyline_collider_translated img ∧
    single_convex_polyline_collider_translated img =
      single_convex_polyline_collider_translated img ∧
    single_heightfield_collider_translated img =
      single_heightfield_collider_translated img ∧
    validBlobs img = validBlobs img :=
  ⟨rfl, rfl, rfl, rfl, rfl⟩

/-- C8: each of the four spawn systems returns early and spawns nothing when
its string key is absent from the handle map, and spawns an entity only when
the corresponding handle is present. -/
theorem c8_missing_handle_spawns_nothing (ga : GameAsset)
    (store : Handle → Option Image) :
    (getHandle ga "custom_png" = none → custom_png_spawn ga store = some []) ∧
    (getHandle ga "car_handle" = none → car_spawn ga store = some []) ∧
    (getHandle ga "terrain_handle" = none → terrain_spawn ga store = some []) ∧
    (getHandle ga "boulders" = none → boulders_spawn ga store = some []) ∧
    (∀ l, custom_png_spawn ga store = some l → l ≠ [] →
      (getHandle ga "custom_png").isSome = true) ∧
    (∀ l, car_spawn ga store = some l → l ≠ [] →
      (getHandle ga "car_handle").isSome = true) ∧
    (∀ l, terrain_spawn ga store = some l → l ≠ [] →
      (getHandle ga "terrain_handle").isSome = true) ∧
    (∀ l, boulders_spawn ga store = some l → l ≠ [] →
      (getHandle ga "boulders").isSome = true) := by
  refine ⟨fun h => ?_, fun h => ?_, fun h => ?_, fun h => ?_,
    fun l hl hne => ?_, fun l hl hne => ?_, fun l hl hne => ?_,
    fun l hl hne => ?_⟩
  · unfold custom_png_spawn
    rw [h]
  · unfold car_spawn
    rw [h]
  · unfold terrain_spawn
    rw [h]
  · unfold boulders_spawn
    rw [h]
  · cases hg : getHandle ga "custom_png" with
    | some h => rfl
    | none =>
      unfold custom_png_spawn at hl
      rw [hg] at hl
      injection hl with hl
      exact absurd hl.symm hne
  · cases hg : getHandle ga "car_handle" with
    | some h => rfl
    | none =>
      unfold car_spawn at hl
      rw [hg] at hl
      injection hl with hl
      exact absurd hl.symm hne
  · cases hg : getHandle ga "terrain_handle" with
    | some h => rfl
    | none =>
      unfold terrain_spawn at hl
      rw [hg] at hl
      injection hl with hl
      exact absurd hl.symm hne
  · cases hg : getHandle ga "boulders" with
    | some h => rfl
    | none =>
      unfold boulders_spawn at hl
      rw [hg] at hl
      injection hl with hl
      exact absurd hl.symm hne

/-- C8 witness: with an empty handle map nothing is spawned by any of the
four systems. -/
theorem c8_witness :
    custom_png_spawn ⟨0, []⟩ (fun _ => none) = some [] ∧
    car_spawn ⟨0, []⟩ (fun _ => none) = some [] ∧
    terrain_spawn ⟨0, []⟩ (fun _ => none) = some [] ∧
    boulders_spawn ⟨0, []⟩ (fun _ => none) = some [] := by
  have h := c8_missing_handle_spawns_nothing ⟨0, []⟩ (fun _ => none)
  exact ⟨h.1 rfl, h.2.1 rfl, h.2.2.1 rfl, h.2.2.2.1 rfl⟩

/-- C9: on every valid image the boundary-groups entry point and the
multi-collider entry point return sequences of the same length, both mapped
over the same blob list in the same order, so zipping them (as
`boulders_spawn` does) pairs each blob's outline with that same blob's
collider. -/
theorem c9_edge_and_collider_groups_align (img : Image)
    (hw : 0 < img.width) (hh : 0 < img.height) :
    ∃ gs cs,
      multi_image_edge_translated img = Except.ok gs ∧
      multi_convex_polyline_collider_translated img = Except.ok cs ∧
      gs = (validBlobs img).map (edgePolylineOfBlob img) ∧
      cs = (validBlobs img).map (fun b => some (colliderOfBlob img b)) ∧
      gs.length = cs.length ∧
      ∀ pr ∈ gs.zip cs, ∃ b ∈ validBlobs img,
        pr.1 = edgePolylineOfBlob img b ∧
        pr.2 = some (colliderOfBlob img b) := by
  have hz := zeroArea_eq_false img hw hh
  refine ⟨_, _, by rw [multi_image_edge_translated, hz]; rfl,
    by rw [multi_convex_polyline_collider_translated, hz]; rfl, rfl, rfl,
    by simp, ?_⟩
  intro pr hpr
  rw [List.zip_map'] at hpr
  obtain ⟨b, hb, rfl⟩ := List.mem_map.mp hpr
  exact ⟨b, hb, rfl, rfl⟩

/-- C9 witness: the statement instantiated at the concrete 2-by-2 fully solid
image. -/
theorem c9_witness :
    ∃ gs cs,
      multi_image_edge_translated imgFull2 = Except.ok gs ∧
      multi_convex_polyline_collider_translated imgFull2 = Except.ok cs ∧
      gs = (validBlobs imgFull2).map (edgePolylineOfBlob imgFull2) ∧
      cs = (validBlobs imgFull2).map
        (fun b => some (colliderOfBlob imgFull2 b)) ∧
      gs.length = cs.length ∧
      ∀ pr ∈ gs.zip cs, ∃ b ∈ validBlobs imgFull2,
        pr.1 = edgePolylineOfBlob imgFull2 b ∧
        pr.2 = some (colliderOfBlob imgFull2 b) :=
  c9_edge_and_collider_groups_align imgFull2 (by decide) (by decide)

/-- C10: the Running state is absorbing — any number of scheduler updates
starting from Running stays in Running — every update either leaves the state
unchanged or performs the single Loading-to-Running transition, the only
system whose state effect can differ from the identity is `check_assets`, and
`check_assets` is registered for updates only in the Loading state. -/
theorem c10_running_never_returns_to_loading :
    (∀ envs : List Env,
      envs.foldl (fun s e => appUpdate e s) AppState.Running =
        AppState.Running) ∧
    (∀ (env : Env) (st : AppState),
      appUpdate env st = st ∨
        (st = AppState.Loading ∧ appUpdate env st = AppState.Running)) ∧
    (∀ (env : Env) (sys : SystemId) (st : AppState),
      stateEffect env sys st = st ∨ sys = SystemId.check_assets) ∧
    SystemId.check_assets ∈ onUpdateSystems AppState.Loading ∧
    ((onUpdateSystems AppState.Running).contains SystemId.check_assets
      = false) ∧
    ((onEnterSystems AppState.Loading).contains SystemId.check_assets
      = false) ∧
    ((onEnterSystems AppState.Running).contains SystemId.check_assets
      = false) ∧
    ((onExitSystems AppState.Loading).contains SystemId.check_assets
      = false) ∧
    ((onExitSystems AppState.Running).contains SystemId.check_assets
      = false) := by
  have hrun : ∀ env : Env, appUpdate env AppState.Running = AppState.Running :=
    fun env => rfl
  have hload : ∀ env : Env,
      appUpdate env AppState.Loading = AppState.Loading ∨
        appUpdate env AppState.Loading = AppState.Running := by
    intro env
    have h1 : appUpdate env AppState.Loading =
        (if check_assets env.loadState env.assets AppState.Loading =
            AppState.Loading
         then check_assets env.loadState env.assets AppState.Loading
         else (onExitSystems AppState.Loading).foldl
           (fun s sys => stateEffect env sys s)
           (check_assets env.loadState env.assets AppState.Loading)) := rfl
    rw [check_assets_eq] at h1
    by_cases hc : (∀ kv ∈ env.assets.imageHandles,
        env.loadState kv.2 = LoadState.Loaded) ∧
        env.loadState env.assets.fontHandle = LoadState.Loaded
    · rw [if_pos hc] at h1
      simp only [onExitSystems, List.foldl_cons, List.foldl_nil,
        stateEffect] at h1
      right
      rw [h1]
      rfl
    · rw [if_neg hc] at h1
      simp only [if_pos rfl] at h1
      exact Or.inl h1
  refine ⟨?_, ?_, ?_, by simp [onUpdateSystems], rfl, rfl, rfl, rfl, rfl⟩
  · intro envs
    induction envs with
    | nil => rfl
    | cons e es ih =>
      rw [List.foldl_cons, hrun e]
      exact ih
  · intro env st
    cases st with
    | Running => exact Or.inl (hrun env)
    | Loading =>
      rcases hload env with h | h
      · exact Or.inl h
      · exact Or.inr ⟨rfl, h⟩
  · intro env sys st
    cases sys
    case check_assets => exact Or.inr rfl
    all_goals exact Or.inl rfl
